import Mathlib

/-!
Verification development for the repository mining scripts
(scripts/mine_ts_react_jest, TypeScript and JavaScript variants).

The scripts query a code-search API, detect a technology profile
(TypeScript + React + Jest) per repository via layered heuristics, filter
course/boilerplate noise, and append qualifying rows to a CSV file.

The detectors are shallowly embedded: network fetches become an explicit
environment (`RepoEnv`) whose fields give, per endpoint, either a value,
an absent result, or an error; computations that can propagate an
exception live in `Except Unit`.  A promise with a `.catch` fallback is
modelled by `caught`.
-/

/-- JS truthiness of a nullable string: null and the empty string are falsy. -/
def strTruthy : Option String → Bool
  | some s => s != ""
  | none => false

/-- Prefix test on character lists. -/
def listIsPrefixOf : List Char → List Char → Bool
  | [], _ => true
  | _ :: _, [] => false
  | a :: as, b :: bs => a == b && listIsPrefixOf as bs

/-- Infix test on character lists: the needle occurs contiguously. -/
def listIsInfix (n : List Char) : List Char → Bool
  | [] => listIsPrefixOf n []
  | c :: cs => listIsPrefixOf n (c :: cs) || listIsInfix n cs

/-- Model of `String.prototype.includes`: `n` occurs as a substring of `h`. -/
def strIncludes (h n : String) : Bool :=
  listIsInfix n.data h.data

/-- Model of `String.prototype.toLowerCase` (ASCII letters, as all the
keyword and marker comparisons of the source need). -/
def jsToLower (s : String) : String :=
  String.mk (s.data.map Char.toLower)

/-- Suffix test on strings (the anchored part of the test-file regex). -/
def strEndsWith (s suffix : String) : Bool :=
  listIsPrefixOf suffix.data.reverse s.data.reverse

/-- `basePath.split("/").length` of the source: one more than the number
of separator occurrences (the separator is a single character). -/
def pathDepth (s : String) : Nat :=
  (s.data.filter fun c => c == '/').length + 1

/-- `list.join(sep)` of the source. -/
def joinWith (sep : String) : List String → String
  | [] => ""
  | [s] => s
  | s :: rest => String.mk (s.data ++ sep.data ++ (joinWith sep rest).data)

/-- Decidable equality for the Except values the detectors return. -/
instance {α : Type} [DecidableEq α] : DecidableEq (Except Unit α) := fun x y =>
  match x, y with
  | Except.ok a, Except.ok b =>
      if h : a = b then isTrue (by rw [h]) else isFalse (by simp [h])
  | Except.error a, Except.error b => isTrue (by cases a; cases b; rfl)
  | Except.ok _, Except.error _ => isFalse (by simp)
  | Except.error _, Except.ok _ => isFalse (by simp)

/-- Result of awaiting a promise with `.catch` returning a default value. -/
def caught {α : Type} (d : α) : Except Unit α → α
  | Except.ok a => a
  | Except.error _ => d

/-- Whether an `Except Unit` computation succeeded. -/
def isOkE {α : Type} : Except Unit α → Bool
  | Except.ok _ => true
  | Except.error _ => false

/-- The parsed view of a root manifest (package.json): dependency maps and
the scripts map, each an association list of string keys and values. -/
structure PkgJson where
  dependencies : List (String × String)
  devDependencies : List (String × String)
  scripts : List (String × String)
deriving Repr, DecidableEq, Inhabited

/-- Truthy lookup in an object: `Boolean(obj[name])` for string values. -/
def truthyLookup (l : List (String × String)) (name : String) : Bool :=
  strTruthy (l.lookup name)

/-- `hasDep` from the source: `Boolean(deps[name] || dev[name])`. -/
def hasDep (p : PkgJson) (name : String) : Bool :=
  truthyLookup p.dependencies name || truthyLookup p.devDependencies name

/-- `pkgHasAnyDep` from the source: some listed package name is a dependency. -/
def pkgHasAnyDep (p : PkgJson) (names : List String) : Bool :=
  names.any fun n => hasDep p n

/-- `scriptsContain` (list form, used by the richer variants): some script
value, lowercased, contains one of the given substrings. -/
def scriptsContain (p : PkgJson) (substrings : List String) : Bool :=
  substrings.any fun sub => p.scripts.any fun kv => strIncludes (jsToLower kv.2) sub

/-- A directory entry as returned by the contents endpoint during the
source scan.  `dirErr` is a directory whose listing fetch fails or does
not return an array; `other` is any item type other than file and dir. -/
inductive FsEntry where
  | file (name path : String)
  | dir (name path : String) (entries : List FsEntry)
  | dirErr (name path : String)
  | other (name path : String)

/-- The network environment a single repository analysis observes.
`languages`, `topics` and `content` are the outcomes of the corresponding
REST helpers before any `.catch`: an error constructor means the
underlying GET raised (timeout, non-2xx other than 404, ...).  `content p`
returns the decoded file at path `p` (`none` models both a 404 and a
200 response without decodable base64 content, which the source maps to
null alike).  `parse` models `JSON.parse` with its surrounding
try/catch (`none` = parse failure).  `rootDirs p` is the listing of the
top-level directory `p` when the fetch yields a 200 array response. -/
structure RepoEnv where
  languages : Except Unit (List (String × Int))
  topics : Except Unit (List String)
  content : String → Except Unit (Option String)
  parse : String → Option PkgJson
  rootDirs : String → Option (List FsEntry)

/-- `if (pkgText) { try { JSON.parse(pkgText) } catch {} }`. -/
def parseIfTruthy (parse : String → Option PkgJson) : Option String → Option PkgJson
  | some s => if s == "" then none else parse s
  | none => none

/-- The language-breakdown signal: `typeof langs.TypeScript === "number"
&& langs.TypeScript > 0` (values are numbers in the model). -/
def getLangTS (langs : List (String × Int)) : Bool :=
  match langs.lookup "TypeScript" with
  | some n => decide (0 < n)
  | none => false

/-- Root jest configuration filenames probed by every variant. -/
def jestConfigFiles : List String :=
  ["jest.config.js", "jest.config.cjs", "jest.config.mjs", "jest.config.ts",
   "jest.config.json"]

/-- The config-file fallback loop for Jest: fetch each candidate in order,
stop at the first truthy content.  Fetch errors propagate (no catch in the
source). -/
def jestConfigLoop (env : RepoEnv) : List String → Except Unit Bool
  | [] => Except.ok false
  | f :: rest => do
      let c ← env.content f
      if strTruthy c then pure true else jestConfigLoop env rest

/-- The TypeScript config-file fallback shared by all variants: executed
only when the language signal is still false; fetches tsconfig.json and,
only if that is falsy, tsconfig.base.json. -/
def tsConfigFallback (env : RepoEnv) : Except Unit Bool := do
  let tsconfig ← env.content "tsconfig.json"
  if strTruthy tsconfig then pure true
  else do
    let tsb ← env.content "tsconfig.base.json"
    pure (strTruthy tsb)

/-- Every content fetch of the environment succeeds (no network error;
404 and undecodable bodies still allowed, as `Except.ok none`). -/
def contentOk (env : RepoEnv) : Prop :=
  ∀ f : String, ∃ v, env.content f = Except.ok v

namespace V1

/-- The signals returned by the simple (GraphQL, first) variant of detectTech. -/
structure TechSignals where
  hasTS : Bool
  hasReact : Bool
  hasJest : Bool
deriving Repr, DecidableEq

/-- `scriptsContain` (single-term form of the first variant). -/
def scriptsContain (p : PkgJson) (term : String) : Bool :=
  p.scripts.any fun kv => strIncludes (jsToLower kv.2) term

/-- The first variant of detectTech.  The language-breakdown and topic
fetches carry a `.catch` fallback; the manifest and config-file fetches do
not, so their errors propagate. -/
def detectTech (env : RepoEnv) : Except Unit TechSignals := do
  let langs := caught [] env.languages
  let hasTS := getLangTS langs
  let pkgText ← env.content "package.json"
  let pkgJson := parseIfTruthy env.parse pkgText
  let hasReact := match pkgJson with
    | some p => pkgHasAnyDep p ["react", "react-dom"]
    | none => false
  let hasTS := match pkgJson with
    | some p => hasTS || pkgHasAnyDep p ["typescript"]
    | none => hasTS
  let hasJest := match pkgJson with
    | some p =>
        pkgHasAnyDep p ["jest", "@jest/globals", "ts-jest", "babel-jest"] ||
          scriptsContain p "jest"
    | none => false
  let hasReact :=
    hasReact || ((caught [] env.topics).map jsToLower).contains "react"
  let hasTS ← if hasTS then pure true else tsConfigFallback env
  let hasJest ← if hasJest then pure true else jestConfigLoop env jestConfigFiles
  pure ⟨hasTS, hasReact, hasJest⟩

end V1

namespace V2

/-- The per-manifest frontend information of the richer variants. -/
structure FrontendInfo where
  hasFrontendTests : Bool
  libs : List String
  hasJest : Bool
  hasReactDeps : Bool
  hasFrontendTestLibs : Bool
deriving Repr, DecidableEq

/-- `detectFrontendFromPkg` of the REST (.ts, second) and concurrent (.js)
variants: the bare test-runner signal, the React dependency signal, and
the stricter frontend-test-library signal (testing-library or enzyme). -/
def detectFrontendFromPkg (p : PkgJson) : FrontendInfo :=
  let hasJest :=
    pkgHasAnyDep p ["jest", "@jest/globals", "ts-jest", "babel-jest"] ||
      scriptsContain p ["jest"]
  let hasReactDeps := pkgHasAnyDep p ["react", "react-dom"]
  let hasRTL := pkgHasAnyDep p
    ["@testing-library/react", "@testing-library/jest-dom",
     "@testing-library/user-event"]
  let hasEnzyme := pkgHasAnyDep p ["enzyme"]
  let libs :=
    (if hasRTL then ["testing-library"] else []) ++
    (if hasEnzyme then ["enzyme"] else []) ++
    (if hasJest then ["jest"] else [])
  let hasFrontendTestLibs := hasRTL || hasEnzyme
  let hasFrontendTests := hasReactDeps && hasJest && hasFrontendTestLibs
  ⟨hasFrontendTests, libs, hasJest, hasReactDeps, hasFrontendTestLibs⟩

/-- The test-file naming convention `\.(test|spec)\.tsx?$`. -/
def isTestFileName (name : String) : Bool :=
  strEndsWith name ".test.tsx" || strEndsWith name ".test.ts" ||
    strEndsWith name ".spec.tsx" || strEndsWith name ".spec.ts"

/-- The text markers a scanned test file is checked for: the
testing-library render import (both substrings must occur) or an
enzyme-style marker. -/
def testFileMatches (c : String) : Bool :=
  (strIncludes c "import \x7b render \x7d" && strIncludes c "@testing-library/react")
    || strIncludes c "enzyme" || strIncludes c "shallow" || strIncludes c "mount"

/-- `searchDirectoryForReactTests`: walk a directory listing; for a file
matching the test-file convention, fetch its content (errors and null
content are skipped) and return true at the first marker match; recurse
into non-excluded subdirectories while the base path has fewer than 3
segments. -/
def searchDirectoryForReactTests (env : RepoEnv) :
    List FsEntry → String → Bool
  | [], _ => false
  | FsEntry.file name path :: rest, basePath =>
      if isTestFileName name then
        match env.content path with
        | Except.ok (some c) =>
            if strTruthy (some c) && testFileMatches c then true
            else searchDirectoryForReactTests env rest basePath
        | _ => searchDirectoryForReactTests env rest basePath
      else searchDirectoryForReactTests env rest basePath
  | FsEntry.dir name path entries :: rest, basePath =>
      if name == "node_modules" || name == ".git" then
        searchDirectoryForReactTests env rest basePath
      else if pathDepth basePath < 3 then
        if searchDirectoryForReactTests env entries path then true
        else searchDirectoryForReactTests env rest basePath
      else searchDirectoryForReactTests env rest basePath
  | FsEntry.dirErr _ _ :: rest, basePath =>
      searchDirectoryForReactTests env rest basePath
  | FsEntry.other _ _ :: rest, basePath =>
      searchDirectoryForReactTests env rest basePath

/-- The conventional top-level directories inspected by the scan. -/
def testPatterns : List String := ["src", "__tests__", "test", "tests"]

/-- `searchForTestFiles`: try each conventional directory in order and
stop at the first positive scan; listing failures are skipped. -/
def searchForTestFiles (env : RepoEnv) : Bool :=
  testPatterns.any fun pattern =>
    match env.rootDirs pattern with
    | some contents => searchDirectoryForReactTests env contents pattern
    | none => false

/-- The detector state after the language, manifest, topic and
config-file layers, before the source-scan fallback. -/
structure PreState where
  hasTS : Bool
  hasReact : Bool
  hasJest : Bool
  hasFrontendTestLibs : Bool
  feLibs : List String
  topics : List String
  hasReactDeps : Bool
deriving Repr, DecidableEq

/-- The signals returned by the richer detectTech. -/
structure TechSignals where
  hasTS : Bool
  hasReact : Bool
  hasJest : Bool
  hasFrontendTests : Bool
  feLibs : List String
  topics : List String
  hasReactDeps : Bool
  hasFrontendTestLibs : Bool
deriving Repr, DecidableEq

/-- Layers 1-4 of the richer detectTech (everything before the
source-scan fallback), errors of the manifest and config-file fetches
propagating as in the source. -/
def detectPre (env : RepoEnv) : Except Unit PreState := do
  let langs := caught [] env.languages
  let hasTS := getLangTS langs
  let pkgText ← env.content "package.json"
  let pkgJson := parseIfTruthy env.parse pkgText
  let hasReactDeps := match pkgJson with
    | some p => pkgHasAnyDep p ["react", "react-dom"]
    | none => false
  let hasReact := hasReactDeps
  let hasTS := match pkgJson with
    | some p => hasTS || pkgHasAnyDep p ["typescript"]
    | none => hasTS
  let fe := pkgJson.map detectFrontendFromPkg
  let hasJest := match fe with | some i => i.hasJest | none => false
  let hasFrontendTestLibs := match fe with
    | some i => i.hasFrontendTestLibs
    | none => false
  let feLibs := match fe with | some i => i.libs | none => []
  let topics := caught [] env.topics
  let hasReact := hasReact || (topics.map jsToLower).contains "react"
  let hasTS ← if hasTS then pure true else tsConfigFallback env
  let r ← if hasJest then pure (hasJest, feLibs) else do
      let found ← jestConfigLoop env jestConfigFiles
      if found then
        pure (true, if feLibs.contains "jest" then feLibs else feLibs ++ ["jest"])
      else pure (false, feLibs)
  pure ⟨hasTS, hasReact, r.1, hasFrontendTestLibs, r.2, topics, hasReactDeps⟩

/-- The source-scan fallback and final rule of the richer detectTech:
scan only when framework and bare test-runner are present but no
test-utility package was found; a positive scan sets the
frontend-test-library signal and records the marker "test-files". -/
def applyScan (env : RepoEnv) (s : PreState) : TechSignals :=
  let r :=
    if s.hasReact && s.hasJest && !s.hasFrontendTestLibs then
      if searchForTestFiles env then (true, s.feLibs ++ ["test-files"])
      else (s.hasFrontendTestLibs, s.feLibs)
    else (s.hasFrontendTestLibs, s.feLibs)
  let hasFrontendTests := s.hasReact && s.hasJest && r.1
  ⟨s.hasTS, s.hasReact, s.hasJest, hasFrontendTests, r.2, s.topics,
    s.hasReactDeps, r.1⟩

/-- The richer (REST .ts and concurrent .js) variant of detectTech. -/
def detectTech (env : RepoEnv) : Except Unit TechSignals :=
  (detectPre env).map (applyScan env)

/-- The per-candidate qualification decision of the REST .ts main loop:
noise exclusion first, then TypeScript and React, then the frontend-test
rule (which is checked unconditionally in this variant). -/
def qualifies (excludeCourse : Bool) (isNoise : Bool) (t : TechSignals) : Bool :=
  !(excludeCourse && isNoise) && (t.hasTS && t.hasReact) && t.hasFrontendTests

/-- The language signal as a function of the language breakdown and the
TypeScript config files only (the path the richer detectTech takes when
the manifest contributes no typescript dependency). -/
def tsSignal (env : RepoEnv) : Except Unit Bool := do
  let langs := caught [] env.languages
  let hasTS := getLangTS langs
  if hasTS then pure true else tsConfigFallback env

end V2

namespace P0

/-- The per-manifest frontend information of the part_000 variant: only
Jest and Testing Library count, and either alone suffices. -/
structure FrontendInfo where
  hasFrontendTests : Bool
  libs : List String
  hasJest : Bool
  hasRTL : Bool
deriving Repr, DecidableEq

/-- `detectFrontendFromPkg` of the part_000 variant. -/
def detectFrontendFromPkg (p : PkgJson) : FrontendInfo :=
  let hasJest :=
    pkgHasAnyDep p ["jest", "@jest/globals", "ts-jest", "babel-jest"] ||
      scriptsContain p ["jest"]
  let hasRTL := pkgHasAnyDep p
    ["@testing-library/react", "@testing-library/jest-dom",
     "@testing-library/user-event"]
  let libs :=
    (if hasRTL then ["testing-library"] else []) ++
    (if hasJest then ["jest"] else [])
  ⟨hasJest || hasRTL, libs, hasJest, hasRTL⟩

/-- The signals returned by the part_000 detectTech. -/
structure TechSignals where
  hasTS : Bool
  hasReact : Bool
  hasJest : Bool
  hasFrontendTests : Bool
  feLibs : List String
  topics : List String
deriving Repr, DecidableEq

/-- The part_000 variant of detectTech. -/
def detectTech (env : RepoEnv) : Except Unit TechSignals := do
  let langs := caught [] env.languages
  let hasTS := getLangTS langs
  let pkgText ← env.content "package.json"
  let pkgJson := parseIfTruthy env.parse pkgText
  let hasReact := match pkgJson with
    | some p => pkgHasAnyDep p ["react", "react-dom"]
    | none => false
  let hasTS := match pkgJson with
    | some p => hasTS || pkgHasAnyDep p ["typescript"]
    | none => hasTS
  let fe := pkgJson.map detectFrontendFromPkg
  let hasFrontendTests := match fe with
    | some i => i.hasFrontendTests
    | none => false
  let feLibs := match fe with | some i => i.libs | none => []
  let hasJest := match fe with | some i => i.hasJest | none => false
  let topics := caught [] env.topics
  let hasReact := hasReact || (topics.map jsToLower).contains "react"
  let hasTS ← if hasTS then pure true else tsConfigFallback env
  let r ← if hasJest then pure (hasJest, feLibs) else do
      let found ← jestConfigLoop env jestConfigFiles
      if found then
        pure (true, if feLibs.contains "jest" then feLibs else feLibs ++ ["jest"])
      else pure (false, feLibs)
  let hasFrontendTests := hasFrontendTests || r.1
  pure ⟨hasTS, hasReact, r.1, hasFrontendTests, r.2, topics⟩

/-- The per-candidate qualification decision of the part_000 main loop:
noise exclusion, then TypeScript and React, then (only when the
REQUIRE_FRONTEND_TESTS flag is set) the frontend-test evidence. -/
def qualifies (excludeCourse requireFrontend : Bool) (isNoise : Bool)
    (t : TechSignals) : Bool :=
  !(excludeCourse && isNoise) && (t.hasTS && t.hasReact) &&
    (!requireFrontend || t.hasFrontendTests)

end P0

/-! ### Noise filter (course / boilerplate / template classification) -/

/-- The default course/tutorial keyword list of the source. -/
def COURSE_KEYWORDS_DEFAULT : List String :=
  ["curso", "course", "udemy", "alura", "rocketseat", "bootcamp",
   "treinamento", "tutorial", "aula", "aulas", "exercicio", "exercício",
   "exercicios", "exercícios", "learn", "learning", "education", "formacao",
   "formação", "nanodegree", "codecademy", "freecodecamp"]

/-- The default boilerplate/template keyword list of the source. -/
def BOILERPLATE_KEYWORDS_DEFAULT : List String :=
  ["boilerplate", "starter", "starter-kit", "seed", "scaffold", "skeleton",
   "quickstart", "template", "templates"]

/-- `textIncludesAny`: lowercase the haystack (null becomes the empty
string) and test each keyword as a substring.  The model lowercases via
`String.toLower`, which maps ASCII letters as the source does. -/
def textIncludesAny (haystack : Option String) (keywords : List String) : Bool :=
  let lc := jsToLower (haystack.getD "")
  keywords.any fun k => strIncludes lc k

/-- `detectCourseOrBoilerplate`: keyword matching over name, description
and the joined topic string; only when nothing matched and the README
check is enabled, the first 4000 characters of the README are also
tested.  `readme` is the text `getRepoReadme` resolves to (its fetch
never raises: every failure path yields the empty string). -/
def detectCourseOrBoilerplate (extraCourse extraBoiler : List String)
    (readmeCheck : Bool) (readme : String)
    (name description : Option String) (topics : List String) : Bool :=
  let courseKeywords := COURSE_KEYWORDS_DEFAULT ++ extraCourse
  let boilerKeywords := BOILERPLATE_KEYWORDS_DEFAULT ++ extraBoiler
  let nameStr := some (jsToLower (name.getD ""))
  let descStr := some (jsToLower (description.getD ""))
  let topicsStr := some (joinWith " " (topics.map jsToLower))
  let isCourse :=
    textIncludesAny nameStr courseKeywords ||
    textIncludesAny descStr courseKeywords ||
    textIncludesAny topicsStr courseKeywords
  let isBoiler :=
    textIncludesAny nameStr boilerKeywords ||
    textIncludesAny descStr boilerKeywords ||
    textIncludesAny topicsStr boilerKeywords
  let r :=
    if !isCourse && !isBoiler && readmeCheck then
      let readme2k := some (jsToLower (String.mk (readme.data.take 4000)))
      (isCourse || textIncludesAny readme2k courseKeywords,
       isBoiler || textIncludesAny readme2k boilerKeywords)
    else (isCourse, isBoiler)
  r.1 || r.2

/-! ### Rate-limited HTTP client -/

/-- The rate-limit headers of a response: the raw remaining counter (a
string header, absent when null) and the reset header, modelled at the
parsed level as epoch seconds (`none` = header absent or empty). -/
structure RLHeaders where
  remaining : Option String
  reset : Option Nat
deriving Repr, DecidableEq

/-- A response as the client observes it: status, rate-limit headers and
the parsed JSON body (`none` models a null or unparseable body). -/
structure GhResp (α : Type) where
  status : Nat
  headers : RLHeaders
  body : Option α

/-- `handleRateLimit`: on 403 with remaining exactly "0" and a reset
header present, the wait in milliseconds before the retry; in every
other case, no retry. -/
def handleRateLimit (status : Nat) (h : RLHeaders) (now : Int) : Option Int :=
  if status == 403 then
    match h.remaining, h.reset with
    | some r, some t =>
        if r == "0" then some (max 0 ((t : Int) * 1000 - now) + 5000) else none
    | _, _ => none
  else none

/-- What one iteration of the ghGET loop does with a response. -/
inductive GhStep (α : Type) where
  | retryAfter (waitMs : Int)
  | notFound
  | ok (status : Nat) (data : Option α)
  | fail
deriving Repr

/-- One iteration of ghGET: the 403 retry check, then the distinguished
404 result, then the throw on any other non-2xx status, then the parsed
body. -/
def ghGETstep {α : Type} (r : GhResp α) (now : Int) : GhStep α :=
  match handleRateLimit r.status r.headers now with
  | some w => GhStep.retryAfter w
  | none =>
      if r.status == 404 then GhStep.notFound
      else if 200 ≤ r.status ∧ r.status ≤ 299 then GhStep.ok r.status r.body
      else GhStep.fail

/-- The final outcome of a ghGET call. -/
inductive GhOutcome (α : Type) where
  | ok (status : Nat) (data : Option α)
  | notFound
  | err
deriving Repr

/-- The ghGET retry loop over the successive responses the repeated
request receives; `none` when every supplied response demanded a retry
(the loop would still be running). -/
def ghGETrun {α : Type} (now : Int) : List (GhResp α) → Option (GhOutcome α)
  | [] => none
  | r :: rest =>
      match ghGETstep r now with
      | GhStep.retryAfter _ => ghGETrun now rest
      | GhStep.notFound => some GhOutcome.notFound
      | GhStep.ok st d => some (GhOutcome.ok st d)
      | GhStep.fail => some GhOutcome.err

/-- The body of a contents-endpoint response relevant to getRepoContent:
the declared encoding, the raw content field, and the result `decode`
reaches on it (decoding failure caught as null). -/
structure ContentsBody where
  encoding : String
  content : Option String
deriving Repr, DecidableEq

/-- `getRepoContent` as a function of the ghGET outcome: an error
propagates; a 404, a null body, a non-200 success status, a non-base64
encoding or a falsy content field all give null; otherwise the decoded
text (decoding failure caught as null). -/
def getRepoContentOf (decode : String → Option String) :
    GhOutcome ContentsBody → Except Unit (Option String)
  | GhOutcome.err => Except.error ()
  | GhOutcome.notFound => Except.ok none
  | GhOutcome.ok st d =>
      if st ≠ 200 then Except.ok none
      else match d with
        | none => Except.ok none
        | some b =>
            if b.encoding == "base64" && strTruthy b.content then
              Except.ok (decode (b.content.getD ""))
            else Except.ok none

/-! ### Offset-based pagination driver -/

/-- `Math.ceil(Math.min(total_count, 1000) / perPage)` for a positive
page size. -/
def maxPagesFor (totalCount perPage : Nat) : Nat :=
  (min totalCount 1000 + perPage - 1) / perPage

/-- The fetched page numbers of one query of the REST-paginated main
loop, starting at `page`: the page is always fetched; the loop continues
to the next page only while `go` holds for the page just processed (its
items were nonempty and no limit, stop flag or error broke the loop) and
the page count stays below the Search API ceiling. -/
def pageLoop (totalCount perPage : Nat) (go : Nat → Bool) (page : Nat) :
    List Nat :=
  if h : go page = true ∧ page < maxPagesFor totalCount perPage then
    page :: pageLoop totalCount perPage go (page + 1)
  else [page]
termination_by maxPagesFor totalCount perPage - page
decreasing_by omega

/-! ### The main loop: dedup, analysis cap and qualification cap -/

/-- The per-run mutable state of the REST-paginated main loop:
the processed identity set (a duplicate-free list), the identities
actually analyzed, the identities written to the CSV, and the
reachedLimit flag. -/
structure MineState where
  processed : List String
  analyzed : List String
  written : List String
  reached : Bool
deriving Repr, DecidableEq

/-- One search-result item of the REST-paginated main loop
(ts variant, lines 1075-1150): skip when a limit was reached; skip
duplicates; register the identity and stop before analysis when the
MAX_ANALYZED cap is hit; otherwise analyze, and append plus check
MAX_QUALIFIED when the candidate qualifies.  `qual` is the composite
per-candidate decision (noise filter and technology signals; an analysis
failure is caught and counts as not qualifying). -/
def stepItem (maxAnalyzed maxQualified : Nat) (qual : String → Bool)
    (s : MineState) (n : String) : MineState :=
  if s.reached then s
  else if s.processed.contains n then s
  else
    let p := n :: s.processed
    if 0 < maxAnalyzed ∧ maxAnalyzed ≤ p.length then
      { s with processed := p, reached := true }
    else
      let a := s.analyzed ++ [n]
      if qual n then
        let w := s.written ++ [n]
        { processed := p, analyzed := a, written := w,
          reached := decide (maxQualified ≤ w.length) }
      else
        { processed := p, analyzed := a, written := s.written, reached := false }

/-- A whole run over the stream of search-result identities (all queries
and pages concatenated). -/
def runMine (maxAnalyzed maxQualified : Nat) (qual : String → Bool)
    (items : List String) : MineState :=
  items.foldl (stepItem maxAnalyzed maxQualified qual) ⟨[], [], [], false⟩

/-! ### Concrete environments, manifests and states used by the claim theorems and their witnesses -/

def goodState (M : Nat) (s : MineState) : Prop :=
  s.processed.Nodup ∧ s.analyzed.Nodup ∧ s.written.Nodup ∧
  (∀ x ∈ s.analyzed, x ∈ s.processed) ∧
  (∀ x ∈ s.written, x ∈ s.analyzed) ∧
  s.analyzed.length ≤ s.processed.length ∧
  (0 < M → s.analyzed.length < M)

def envC1 : RepoEnv where
  languages := Except.ok [("TypeScript", 100)]
  topics := Except.ok []
  content := fun p => if p == "package.json" then Except.error () else Except.ok none
  parse := fun _ => none
  rootDirs := fun _ => none

def envW1 : RepoEnv where
  languages := Except.error ()
  topics := Except.error ()
  content := fun _ => Except.ok none
  parse := fun _ => none
  rootDirs := fun _ => none

def pkgC4 : PkgJson :=
  ⟨[("react", "^18.0.0")], [("@testing-library/react", "^14.0.0")], []⟩

def envC4 : RepoEnv where
  languages := Except.ok [("TypeScript", 5)]
  topics := Except.ok []
  content := fun p =>
    if p == "package.json" then Except.ok (some "pkgC4text") else Except.ok none
  parse := fun s => if s == "pkgC4text" then some pkgC4 else none
  rootDirs := fun _ => none

def sigsC4 : P0.TechSignals :=
  ⟨true, true, false, true, ["testing-library"], []⟩

def pkgW4 : PkgJson :=
  ⟨[("react", "^18.0.0")], [("jest", "^29.0.0"), ("@testing-library/react", "^14.0.0")], []⟩

def envW4 : RepoEnv where
  languages := Except.ok [("TypeScript", 9)]
  topics := Except.ok []
  content := fun p =>
    if p == "package.json" then Except.ok (some "pkgW4text") else Except.ok none
  parse := fun s => if s == "pkgW4text" then some pkgW4 else none
  rootDirs := fun _ => none

def sigsW4 : V2.TechSignals :=
  ⟨true, true, true, true, ["testing-library", "jest"], [], true, true⟩

def pkgC3 : PkgJson := ⟨[("react", "^18.0.0")], [("jest", "^29.0.0")], []⟩

def markerC3 : String := "import \x7b render \x7d from @testing-library/react"

def envC3 : RepoEnv where
  languages := Except.ok [("TypeScript", 3)]
  topics := Except.ok []
  content := fun p =>
    if p == "package.json" then Except.ok (some "pkgC3text")
    else if p == "src/App.test.tsx" then Except.ok (some markerC3)
    else Except.ok none
  parse := fun s => if s == "pkgC3text" then some pkgC3 else none
  rootDirs := fun p =>
    if p == "src" then some [FsEntry.file "App.test.tsx" "src/App.test.tsx"]
    else none

def preC3 : V2.PreState := ⟨true, true, true, false, ["jest"], [], true⟩

def preW4 : V2.PreState := ⟨true, true, true, true, ["testing-library", "jest"], [], true⟩

/-! ### Helper lemmas -/



theorem ok_bind {α β : Type} (a : α) (f : α → Except Unit β) :
    (Except.ok a >>= f) = f a := rfl

theorem error_bind {β : Type} (f : Unit → Except Unit β) :
    ((Except.error () : Except Unit Unit) >>= f) = Except.error () := rfl

theorem isOkE_bind {α β : Type} {x : Except Unit α} {f : α → Except Unit β}
    (hx : isOkE x = true) (hf : ∀ a, isOkE (f a) = true) :
    isOkE (x >>= f) = true := by
  cases x with
  | ok a => exact hf a
  | error e => simp [isOkE] at hx

theorem isOkE_pure {α : Type} (a : α) :
    isOkE (pure a : Except Unit α) = true := rfl

theorem contentOk_isOkE {env : RepoEnv} (h : contentOk env) (f : String) :
    isOkE (env.content f) = true := by
  obtain ⟨v, hv⟩ := h f
  simp [hv, isOkE]

theorem tsConfigFallback_isOkE {env : RepoEnv} (h : contentOk env) :
    isOkE (tsConfigFallback env) = true := by
  unfold tsConfigFallback
  refine isOkE_bind (contentOk_isOkE h _) fun c => ?_
  by_cases hc : strTruthy c = true
  · simp [hc, isOkE_pure]
  · simp only [Bool.not_eq_true] at hc
    simp only [hc]
    exact isOkE_bind (contentOk_isOkE h _) fun c2 => isOkE_pure _

theorem jestConfigLoop_isOkE {env : RepoEnv} (h : contentOk env) :
    ∀ fs : List String, isOkE (jestConfigLoop env fs) = true := by
  intro fs
  induction fs with
  | nil => rfl
  | cons f rest ih =>
      unfold jestConfigLoop
      refine isOkE_bind (contentOk_isOkE h _) fun c => ?_
      by_cases hc : strTruthy c = true
      · simp [hc, isOkE_pure]
      · simp only [Bool.not_eq_true] at hc
        simp only [hc]
        simpa using ih

/-! ### Claim C5: rate-limit backoff -/

theorem handleRateLimit_eq_some_iff (status : Nat) (h : RLHeaders) (now : Int) (w : Int) :
    handleRateLimit status h now = some w ↔
      status = 403 ∧ h.remaining = some "0" ∧
        ∃ t : Nat, h.reset = some t ∧ w = max 0 ((t : Int) * 1000 - now) + 5000 := by
  rcases h with ⟨rem, res⟩
  rcases rem with _ | rv <;> rcases res with _ | tv <;>
    simp [handleRateLimit, beq_iff_eq]
  aesop

theorem ghGETstep_retry_iff {α : Type} (r : GhResp α) (now : Int) (w : Int) :
    ghGETstep r now = GhStep.retryAfter w ↔
      handleRateLimit r.status r.headers now = some w := by
  unfold ghGETstep
  rcases h : handleRateLimit r.status r.headers now with _ | v
  · constructor
    · intro hstep
      exfalso
      by_cases h404 : (r.status == 404) = true
      · simp [h404] at hstep
      · simp only [h404, Bool.false_eq_true, if_false] at hstep
        by_cases hok : 200 ≤ r.status ∧ r.status ≤ 299
        · simp [hok] at hstep
        · simp [hok] at hstep
    · intro hh; cases hh
  · simp

/-- C5: on a 403 response whose remaining header is exactly "0" and whose
reset header is present, one ghGET iteration signals a retry after
exactly `max 0 (reset * 1000 - now) + 5000` milliseconds of sleep, so the
retried request is issued no earlier than the reset time (indeed at least
the 5 second margin after it); on a 403 without that header combination no
retry is signalled and the response falls through to the throwing branch
(the 2xx and 404 branches cannot apply to a 403), surfacing the failure;
and the retry step arises in no other situation, making it the only
unbounded-retry path of the loop. -/
theorem C5_rate_limit_backoff :
    (∀ (α : Type) (r : GhResp α) (now : Int) (t : Nat),
        r.status = 403 → r.headers.remaining = some "0" →
        r.headers.reset = some t →
        ghGETstep r now = GhStep.retryAfter (max 0 ((t : Int) * 1000 - now) + 5000) ∧
          (t : Int) * 1000 + 5000 ≤ now + (max 0 ((t : Int) * 1000 - now) + 5000)) ∧
    (∀ (α : Type) (r : GhResp α) (now : Int),
        r.status = 403 →
        (r.headers.remaining ≠ some "0" ∨ r.headers.reset = none) →
        ghGETstep r now = GhStep.fail) ∧
    (∀ (α : Type) (r : GhResp α) (now : Int) (w : Int),
        ghGETstep r now = GhStep.retryAfter w →
        r.status = 403 ∧ r.headers.remaining = some "0" ∧
          ∃ t : Nat, r.headers.reset = some t ∧
            w = max 0 ((t : Int) * 1000 - now) + 5000) := by
  refine ⟨?_, ?_, ?_⟩
  · intro α r now t h403 hrem hres
    refine ⟨?_, ?_⟩
    · rw [ghGETstep_retry_iff, handleRateLimit_eq_some_iff]
      exact ⟨h403, hrem, t, hres, rfl⟩
    · have := le_max_right (0 : Int) ((t : Int) * 1000 - now)
      omega
  · intro α r now h403 hother
    have hnone : handleRateLimit r.status r.headers now = none := by
      rcases hv : handleRateLimit r.status r.headers now with _ | v
      · rfl
      · exfalso
        rcases (handleRateLimit_eq_some_iff _ _ _ _).1 hv with ⟨_, hrem, t, hres, _⟩
        rcases hother with hne | hn
        · exact hne hrem
        · rw [hn] at hres; cases hres
    unfold ghGETstep
    rw [hnone]
    simp [h403]
  · intro α r now w hstep
    exact (handleRateLimit_eq_some_iff _ _ _ _).1 ((ghGETstep_retry_iff _ _ _).1 hstep)

/-- Witness for C5 at a concrete 403 response with remaining "0" and
reset 1700000000 observed at now = 1699999000000 ms, and at a concrete
403 response without the exhausted-quota header combination. -/
theorem C5_rate_limit_backoff_witness :
    (ghGETstep (GhResp.mk 403 (RLHeaders.mk (some "0") (some 1700000000)) (none : Option Nat))
        1699999000000 =
      GhStep.retryAfter (max 0 ((1700000000 : Int) * 1000 - 1699999000000) + 5000)) ∧
    (ghGETstep (GhResp.mk 403 (RLHeaders.mk (some "42") none) (none : Option Nat))
        1699999000000 = GhStep.fail) := by
  constructor
  · exact (C5_rate_limit_backoff.1 Nat _ 1699999000000 1700000000 rfl rfl rfl).1
  · exact C5_rate_limit_backoff.2.1 Nat _ 1699999000000 rfl (Or.inl (by decide))

/-! ### Claim C9: 404 as a distinguished non-error result -/

/-- C9: a 404 response makes one ghGET iteration produce the
distinguished not-found result (never the throwing branch), the retry
loop then returns it as the final outcome of the call; getRepoContent
maps that outcome to the absent value null rather than an error; and a
detector run in which every content fetch resolves to null still
succeeds, its signals coming from the remaining layers only (absence
merely disables the manifest and config-file layers). -/
theorem C9_not_found_distinguished :
    (∀ (α : Type) (r : GhResp α) (now : Int), r.status = 404 →
        ghGETstep r now = GhStep.notFound) ∧
    (∀ (α : Type) (now : Int) (r : GhResp α) (rest : List (GhResp α)),
        r.status = 404 → ghGETrun now (r :: rest) = some GhOutcome.notFound) ∧
    (∀ decode : String → Option String,
        getRepoContentOf decode GhOutcome.notFound = Except.ok none) ∧
    (∀ env : RepoEnv, (∀ f, env.content f = Except.ok none) →
        V1.detectTech env = Except.ok
          ⟨getLangTS (caught [] env.languages),
           ((caught [] env.topics).map jsToLower).contains "react", false⟩) := by
  refine ⟨?_, ?_, ?_, ?_⟩
  · intro α r now h404
    have hnone : handleRateLimit r.status r.headers now = none := by
      rcases hv : handleRateLimit r.status r.headers now with _ | v
      · rfl
      · rcases (handleRateLimit_eq_some_iff _ _ _ _).1 hv with ⟨h403, _⟩
        rw [h404] at h403
        cases h403
    unfold ghGETstep
    rw [hnone]
    simp [h404]
  · intro α now r rest h404
    have hnone : handleRateLimit r.status r.headers now = none := by
      rcases hv : handleRateLimit r.status r.headers now with _ | v
      · rfl
      · rcases (handleRateLimit_eq_some_iff _ _ _ _).1 hv with ⟨h403, _⟩
        rw [h404] at h403
        cases h403
    have hstep : ghGETstep r now = GhStep.notFound := by
      unfold ghGETstep
      rw [hnone]
      simp [h404]
    unfold ghGETrun
    rw [hstep]
  · intro decode
    rfl
  · intro env hnone
    unfold V1.detectTech
    rw [hnone "package.json", ok_bind]
    simp only [parseIfTruthy]
    by_cases hts : getLangTS (caught [] env.languages) = true
    · simp [hts, ok_bind, jestConfigLoop, jestConfigFiles, hnone, strTruthy]
    · simp only [Bool.not_eq_true] at hts
      simp [hts, tsConfigFallback, ok_bind, jestConfigLoop, jestConfigFiles,
        hnone, strTruthy]

/-- Witness for C9 at a concrete 404 response and a concrete environment
whose content fetches all resolve to null (language breakdown reporting
TypeScript, no topics): detection succeeds with the language signal from
the breakdown and everything else absent. -/
theorem C9_not_found_distinguished_witness :
    (ghGETstep (GhResp.mk 404 (RLHeaders.mk none none) (none : Option Nat)) 0 =
      GhStep.notFound) ∧
    (V1.detectTech (RepoEnv.mk (Except.ok [("TypeScript", 7)]) (Except.ok [])
        (fun _ => Except.ok none) (fun _ => none) (fun _ => none)) =
      Except.ok ⟨true, false, false⟩) := by
  constructor
  · exact C9_not_found_distinguished.1 Nat _ 0 rfl
  · have h := C9_not_found_distinguished.2.2.2
      (RepoEnv.mk (Except.ok [("TypeScript", 7)]) (Except.ok [])
        (fun _ => Except.ok none) (fun _ => none) (fun _ => none))
      (fun _ => rfl)
    simpa using h

/-! ### Claim C8: the noise classifier -/

theorem textIncludesAny_append (h : Option String) (A B : List String) :
    textIncludesAny h (A ++ B) = (textIncludesAny h A || textIncludesAny h B) := by
  simp [textIncludesAny, List.any_append]

/-- C8: with the deep README check disabled the classifier is a pure
case-insensitive keyword test: the README text is irrelevant, and the
result is exactly "some keyword of the course list or of the boilerplate
list (defaults plus env-supplied extras) occurs in the lowercased name,
description or joined topic string"; a repository named
react-bootcamp-2023 is classified as noise under the default lists for
every description and topic list; and a repository named acme-dashboard
whose description and topics match no keyword of either default list is
not classified as noise. -/
theorem C8_noise_classifier :
    (∀ (ec eb : List String) (r1 r2 : String) (name desc : Option String)
        (topics : List String),
        detectCourseOrBoilerplate ec eb false r1 name desc topics =
          detectCourseOrBoilerplate ec eb false r2 name desc topics) ∧
    (∀ (ec eb : List String) (r : String) (name desc : Option String)
        (topics : List String),
        detectCourseOrBoilerplate ec eb false r name desc topics =
          ((textIncludesAny (some (jsToLower (name.getD "")))
              (COURSE_KEYWORDS_DEFAULT ++ ec) ||
            textIncludesAny (some (jsToLower (desc.getD "")))
              (COURSE_KEYWORDS_DEFAULT ++ ec) ||
            textIncludesAny (some (joinWith " " (topics.map jsToLower)))
              (COURSE_KEYWORDS_DEFAULT ++ ec)) ||
           (textIncludesAny (some (jsToLower (name.getD "")))
              (BOILERPLATE_KEYWORDS_DEFAULT ++ eb) ||
            textIncludesAny (some (jsToLower (desc.getD "")))
              (BOILERPLATE_KEYWORDS_DEFAULT ++ eb) ||
            textIncludesAny (some (joinWith " " (topics.map jsToLower)))
              (BOILERPLATE_KEYWORDS_DEFAULT ++ eb)))) ∧
    (∀ (desc : Option String) (topics : List String),
        detectCourseOrBoilerplate [] [] false "" (some "react-bootcamp-2023")
          desc topics = true) ∧
    (∀ (desc : Option String) (topics : List String),
        textIncludesAny (some (jsToLower (desc.getD "")))
          (COURSE_KEYWORDS_DEFAULT ++ BOILERPLATE_KEYWORDS_DEFAULT) = false →
        textIncludesAny (some (joinWith " " (topics.map jsToLower)))
          (COURSE_KEYWORDS_DEFAULT ++ BOILERPLATE_KEYWORDS_DEFAULT) = false →
        detectCourseOrBoilerplate [] [] false "" (some "acme-dashboard")
          desc topics = false) := by
  have key : ∀ (ec eb : List String) (r : String) (name desc : Option String)
      (topics : List String),
      detectCourseOrBoilerplate ec eb false r name desc topics =
        ((textIncludesAny (some (jsToLower (name.getD "")))
            (COURSE_KEYWORDS_DEFAULT ++ ec) ||
          textIncludesAny (some (jsToLower (desc.getD "")))
            (COURSE_KEYWORDS_DEFAULT ++ ec) ||
          textIncludesAny (some (joinWith " " (topics.map jsToLower)))
            (COURSE_KEYWORDS_DEFAULT ++ ec)) ||
         (textIncludesAny (some (jsToLower (name.getD "")))
            (BOILERPLATE_KEYWORDS_DEFAULT ++ eb) ||
          textIncludesAny (some (jsToLower (desc.getD "")))
            (BOILERPLATE_KEYWORDS_DEFAULT ++ eb) ||
          textIncludesAny (some (joinWith " " (topics.map jsToLower)))
            (BOILERPLATE_KEYWORDS_DEFAULT ++ eb))) := by
    intro ec eb r name desc topics
    simp [detectCourseOrBoilerplate]
  refine ⟨?_, key, ?_, ?_⟩
  · intro ec eb r1 r2 name desc topics
    rw [key, key]
  · intro desc topics
    rw [key]
    have hname : textIncludesAny (some (jsToLower "react-bootcamp-2023"))
        COURSE_KEYWORDS_DEFAULT = true := by decide
    simp [hname]
  · intro desc topics hdesc htop
    rw [key]
    rw [textIncludesAny_append] at hdesc htop
    have h1 := Bool.or_eq_false_iff.1 hdesc
    have h2 := Bool.or_eq_false_iff.1 htop
    have hn1 : textIncludesAny (some (jsToLower ((some "acme-dashboard").getD "")))
        (COURSE_KEYWORDS_DEFAULT ++ ([] : List String)) = false := by decide
    have hn2 : textIncludesAny (some (jsToLower ((some "acme-dashboard").getD "")))
        (BOILERPLATE_KEYWORDS_DEFAULT ++ ([] : List String)) = false := by decide
    simp only [List.append_nil] at hn1 hn2 ⊢
    rw [hn1, hn2, h1.1, h1.2, h2.1, h2.2]
    rfl

/-- Witness for C8 at concrete descriptions and topic lists. -/
theorem C8_noise_classifier_witness :
    (detectCourseOrBoilerplate [] [] false "" (some "react-bootcamp-2023")
      (some "My repo") ["demo"] = true) ∧
    (detectCourseOrBoilerplate [] [] false "" (some "acme-dashboard")
      (some "An internal dashboard") ["frontend"] = false) := by
  constructor
  · exact C8_noise_classifier.2.2.1 (some "My repo") ["demo"]
  · exact C8_noise_classifier.2.2.2 (some "An internal dashboard") ["frontend"]
      (by decide) (by decide)

/-! ### Claim C6: the offset-pagination ceiling -/

theorem pageLoop_mem_le (tc bs : Nat) (go : Nat → Bool) :
    ∀ (fuel page p : Nat), maxPagesFor tc bs - page ≤ fuel →
      p ∈ pageLoop tc bs go page → p ≤ max page (maxPagesFor tc bs) := by
  intro fuel
  induction fuel with
  | zero =>
      intro page p hf hp
      rw [pageLoop.eq_def] at hp
      have hcond : ¬ (go page = true ∧ page < maxPagesFor tc bs) := by
        rintro ⟨-, hlt⟩
        omega
      rw [dif_neg hcond] at hp
      simp at hp
      omega
  | succ n ih =>
      intro page p hf hp
      rw [pageLoop.eq_def] at hp
      by_cases hcond : go page = true ∧ page < maxPagesFor tc bs
      · rw [dif_pos hcond] at hp
        rcases List.mem_cons.1 hp with hpe | hpr
        · omega
        · have := ih (page + 1) p (by omega) hpr
          have h2 := hcond.2
          omega
      · rw [dif_neg hcond] at hp
        simp at hp
        omega

/-- Counterexample to C6 as stated: with a reported total count of 0 and
page size 100 the ceiling `ceil(min(total_count, 1000) / page_size)` is
0, yet the driver has already fetched page 1 (the first page is always
requested before the count is known). -/
theorem C6_counterexample :
    1 ∈ pageLoop 0 100 (fun _ => false) 1 ∧ maxPagesFor 0 100 < 1 := by
  constructor
  · rw [pageLoop.eq_def]
    simp
  · decide

/-- C6 amended: for every query, positive page size and reported total
count, every fetched page number is at most
`max 1 (ceil(min(total_count, 1000) / page_size))` (the first page is
always fetched once); in particular, when the total count exceeds the
1000-match hard cap the driver stops at the page corresponding to the
cap, `ceil(1000 / page_size)`, and never requests a page beyond it. -/
theorem C6_amended :
    ∀ (tc bs : Nat) (go : Nat → Bool) (p : Nat), 1 ≤ bs →
      p ∈ pageLoop tc bs go 1 →
      p ≤ max 1 (maxPagesFor tc bs) ∧
        (1000 < tc → p ≤ maxPagesFor 1000 bs) := by
  intro tc bs go p hbs hp
  have h := pageLoop_mem_le tc bs go (maxPagesFor tc bs) 1 p (by omega) hp
  refine ⟨h, ?_⟩
  intro htc
  have hEq : maxPagesFor tc bs = maxPagesFor 1000 bs := by
    unfold maxPagesFor
    rw [min_eq_right (by omega : (1000 : Nat) ≤ tc), min_self]
  have hone : 1 ≤ maxPagesFor 1000 bs := by
    unfold maxPagesFor
    rw [min_self]
    rw [Nat.one_le_div_iff (by omega)]
    omega
  rw [hEq] at h
  omega

/-- Witness for C6 amended: total count 150, page size 100; page 2 is
fetched and satisfies both bounds. -/
theorem C6_amended_witness :
    2 ≤ max 1 (maxPagesFor 150 100) ∧ (1000 < 150 → 2 ≤ maxPagesFor 1000 100) := by
  have hmax : maxPagesFor 150 100 = 2 := by decide
  have hmem : 2 ∈ pageLoop 150 100 (fun _ => true) 1 := by
    rw [pageLoop.eq_def]
    rw [dif_pos (by rw [hmax]; exact ⟨rfl, by omega⟩)]
    rw [pageLoop.eq_def]
    rw [dif_neg (by rw [hmax]; rintro ⟨-, h⟩; omega)]
    simp
  exact C6_amended 150 100 (fun _ => true) 2 (by decide) hmem

/-! ### Claims C7 and C10: dedup and the MAX_ANALYZED cap -/

theorem stepItem_good (M Q : Nat) (qual : String → Bool) (s : MineState)
    (n : String) (h : goodState M s) : goodState M (stepItem M Q qual s n) := by
  obtain ⟨hp, ha, hw, has, hws, hlen, hltM⟩ := h
  unfold stepItem
  by_cases hr : s.reached = true
  · simp only [hr, if_true]
    exact ⟨hp, ha, hw, has, hws, hlen, hltM⟩
  · simp only [Bool.not_eq_true] at hr
    simp only [hr, Bool.false_eq_true, if_false]
    by_cases hc : s.processed.contains n = true
    · simp only [hc, if_true]
      exact ⟨hp, ha, hw, has, hws, hlen, hltM⟩
    · simp only [Bool.not_eq_true] at hc
      simp only [hc, Bool.false_eq_true, if_false]
      have hnmem : n ∉ s.processed := by
        intro hm
        rw [← List.elem_iff] at hm
        rw [List.contains] at hc
        rw [hc] at hm
        cases hm
      have hna : n ∉ s.analyzed := fun hm => hnmem (has n hm)
      have hnw : n ∉ s.written := fun hm => hna (hws n hm)
      by_cases hcap : 0 < M ∧ M ≤ (n :: s.processed).length
      · rw [if_pos hcap]
        refine ⟨List.nodup_cons.2 ⟨hnmem, hp⟩, ha, hw, ?_, hws, ?_, hltM⟩
        · intro x hx
          exact List.mem_cons_of_mem _ (has x hx)
        · simp only [List.length_cons]
          omega
      · rw [if_neg hcap]
        by_cases hq : qual n = true
        · simp only [hq, if_true]
          have hlc : s.processed.length + 1 < M ∨ ¬ 0 < M := by
            by_cases hM : 0 < M
            · left
              simp only [List.length_cons] at hcap
              omega
            · right; exact hM
          refine ⟨List.nodup_cons.2 ⟨hnmem, hp⟩, ?_, ?_, ?_, ?_, ?_, ?_⟩
          · rw [List.nodup_append]
            exact ⟨ha, List.nodup_singleton n, by
              intro x hx hx2
              rw [List.mem_singleton] at hx2
              subst hx2
              exact hna hx⟩
          · rw [List.nodup_append]
            exact ⟨hw, List.nodup_singleton n, by
              intro x hx hx2
              rw [List.mem_singleton] at hx2
              subst hx2
              exact hnw hx⟩
          · intro x hx
            rcases List.mem_append.1 hx with hx | hx
            · exact List.mem_cons_of_mem _ (has x hx)
            · rw [List.mem_singleton] at hx
              subst hx
              exact List.mem_cons_self _ _
          · intro x hx
            rcases List.mem_append.1 hx with hx | hx
            · exact List.mem_append_left _ (hws x hx)
            · exact List.mem_append_right _ hx
          · simp only [List.length_append, List.length_cons, List.length_nil]
            omega
          · intro hM
            simp only [List.length_append, List.length_cons, List.length_nil]
            rcases hlc with h | h
            · omega
            · exact absurd hM h
        · simp only [hq, Bool.false_eq_true, if_false]
          have hlc : s.processed.length + 1 < M ∨ ¬ 0 < M := by
            by_cases hM : 0 < M
            · left
              simp only [List.length_cons] at hcap
              omega
            · right; exact hM
          refine ⟨List.nodup_cons.2 ⟨hnmem, hp⟩, ?_, hw, ?_, ?_, ?_, ?_⟩
          · rw [List.nodup_append]
            exact ⟨ha, List.nodup_singleton n, by
              intro x hx hx2
              rw [List.mem_singleton] at hx2
              subst hx2
              exact hna hx⟩
          · intro x hx
            rcases List.mem_append.1 hx with hx | hx
            · exact List.mem_cons_of_mem _ (has x hx)
            · rw [List.mem_singleton] at hx
              subst hx
              exact List.mem_cons_self _ _
          · intro x hx
            exact List.mem_append_left _ (hws x hx)
          · simp only [List.length_append, List.length_cons, List.length_nil]
            omega
          · intro hM
            simp only [List.length_append, List.length_cons, List.length_nil]
            rcases hlc with h | h
            · omega
            · exact absurd hM h

theorem runMine_good (M Q : Nat) (qual : String → Bool) (items : List String) :
    goodState M (runMine M Q qual items) := by
  unfold runMine
  have key : ∀ (l : List String) (s : MineState), goodState M s →
      goodState M (l.foldl (stepItem M Q qual) s) := by
    intro l
    induction l with
    | nil => intro s hs; exact hs
    | cons x xs ih =>
        intro s hs
        exact ih _ (stepItem_good M Q qual s x hs)
  refine key items ⟨[], [], [], false⟩ ?_
  refine ⟨List.nodup_nil, List.nodup_nil, List.nodup_nil, ?_, ?_, le_refl _, fun h => h⟩
  · intro x hx; cases hx
  · intro x hx; cases hx

/-- C7: within one run of the REST-paginated main loop, the analyzed
identities are pairwise distinct and the written identities are pairwise
distinct (every written identity having been analyzed), so no two rows
appended by one run share a repository identity; and an identity already
in the processed set is skipped unchanged on every later occurrence. -/
theorem C7_dedup_invariant :
    (∀ (M Q : Nat) (qual : String → Bool) (items : List String),
        (runMine M Q qual items).analyzed.Nodup ∧
        (runMine M Q qual items).written.Nodup ∧
        ∀ x ∈ (runMine M Q qual items).written,
          x ∈ (runMine M Q qual items).analyzed) ∧
    (∀ (M Q : Nat) (qual : String → Bool) (s : MineState) (n : String),
        s.processed.contains n = true → stepItem M Q qual s n = s) := by
  constructor
  · intro M Q qual items
    obtain ⟨-, ha, hw, -, hws, -, -⟩ := runMine_good M Q qual items
    exact ⟨ha, hw, hws⟩
  · intro M Q qual s n hc
    unfold stepItem
    by_cases hr : s.reached = true
    · simp only [hr, if_true]
    · simp only [Bool.not_eq_true] at hr
      simp only [hr, Bool.false_eq_true, if_false, hc, if_true]

/-- Witness for C7 on the concrete stream a, b, a, b and a concrete
already-processed state. -/
theorem C7_dedup_invariant_witness :
    ((runMine 0 100 (fun _ => true) ["a", "b", "a", "b"]).analyzed.Nodup ∧
      (runMine 0 100 (fun _ => true) ["a", "b", "a", "b"]).written.Nodup ∧
      ∀ x ∈ (runMine 0 100 (fun _ => true) ["a", "b", "a", "b"]).written,
        x ∈ (runMine 0 100 (fun _ => true) ["a", "b", "a", "b"]).analyzed) ∧
    stepItem 0 100 (fun _ => true) (MineState.mk ["a"] ["a"] ["a"] false) "a" =
      MineState.mk ["a"] ["a"] ["a"] false := by
  constructor
  · exact C7_dedup_invariant.1 0 100 (fun _ => true) ["a", "b", "a", "b"]
  · exact C7_dedup_invariant.2 0 100 (fun _ => true)
      (MineState.mk ["a"] ["a"] ["a"] false) "a" (by decide)

/-- C10: with a positive MAX_ANALYZED cap, the candidate whose
registration makes the processed set reach the cap is added to the set
and flips the reachedLimit flag with the analyzed and written lists
unchanged (so it is never analyzed); once the flag is set every later
candidate is skipped; consequently strictly fewer than MAX_ANALYZED
candidates are analyzed in any run, and since every written candidate was
analyzed, no candidate at or beyond the cap is ever written, while the
reported analyzed count (the processed set size) is the cap value. -/
theorem C10_max_analyzed_cap :
    ∀ (M Q : Nat) (qual : String → Bool), 0 < M →
      (∀ (s : MineState) (n : String),
          s.reached = false → s.processed.contains n = false →
          s.processed.length + 1 = M →
          stepItem M Q qual s n =
            { s with processed := n :: s.processed, reached := true }) ∧
      (∀ (s : MineState) (n : String), s.reached = true →
          stepItem M Q qual s n = s) ∧
      (∀ items : List String, (runMine M Q qual items).analyzed.length < M) ∧
      (∀ items : List String, ∀ x ∈ (runMine M Q qual items).written,
          x ∈ (runMine M Q qual items).analyzed) := by
  intro M Q qual hM
  refine ⟨?_, ?_, ?_, ?_⟩
  · intro s n hr hc hlen
    unfold stepItem
    simp only [hr, Bool.false_eq_true, if_false, hc]
    rw [if_pos (by simp only [List.length_cons]; omega)]
  · intro s n hr
    unfold stepItem
    simp only [hr, if_true]
  · intro items
    obtain ⟨-, -, -, -, -, -, hlt⟩ := runMine_good M Q qual items
    exact hlt hM
  · intro items
    obtain ⟨-, -, -, -, hws, -, -⟩ := runMine_good M Q qual items
    exact hws

/-- Witness for C10 at cap 3: the third distinct candidate is registered
(set size 3 reported) but not analyzed, and a 4-item run analyzes fewer
than 3 candidates. -/
theorem C10_max_analyzed_cap_witness :
    (stepItem 3 100 (fun _ => true) (MineState.mk ["b", "a"] ["b", "a"] [] false) "c" =
      MineState.mk ["c", "b", "a"] ["b", "a"] [] true) ∧
    (runMine 3 100 (fun _ => true) ["a", "b", "c", "d"]).analyzed.length < 3 := by
  constructor
  · exact (C10_max_analyzed_cap 3 100 (fun _ => true) (by decide)).1
      (MineState.mk ["b", "a"] ["b", "a"] [] false) "c" rfl (by decide) rfl
  · exact (C10_max_analyzed_cap 3 100 (fun _ => true) (by decide)).2.2.1
      ["a", "b", "c", "d"]

/-! ### Claim C1: detectTech never raises -/

/-- Counterexample to C1 as stated: in an environment whose language
breakdown succeeds (TypeScript present) but whose manifest fetch raises
(a non-404 HTTP failure), detectTech itself raises: the exception of the
getRepoContent call for package.json is propagated to the caller of
detect rather than degrading to an absent signal. -/
theorem C1_counterexample :
    V1.detectTech envC1 = Except.error () ∧
    isOkE envC1.languages = true := by
  constructor
  · decide
  · decide

/-- C1 amended: detectTech raises only through its content fetches
(manifest and config files): whenever every content fetch succeeds it
never raises, and a failure of the language-breakdown fetch or of the
topic fetch degrades to the corresponding data being absent (the empty
object or list), these being the only fetches guarded by a catch; a
failing manifest or config-file fetch propagates out of detect and is
handled by the per-repository catch in the main loop. -/
theorem C1_amended :
    (∀ env : RepoEnv, contentOk env → isOkE (V1.detectTech env) = true) ∧
    (∀ env : RepoEnv,
        V1.detectTech { env with languages := Except.error () } =
          V1.detectTech { env with languages := Except.ok [] }) ∧
    (∀ env : RepoEnv,
        V1.detectTech { env with topics := Except.error () } =
          V1.detectTech { env with topics := Except.ok [] }) := by
  refine ⟨?_, ?_, ?_⟩
  · intro env hok
    unfold V1.detectTech
    refine isOkE_bind (contentOk_isOkE hok _) fun pkgText => ?_
    dsimp only
    split
    · refine isOkE_bind (isOkE_pure _) fun y => ?_
      split
      · exact isOkE_bind (isOkE_pure _) fun y2 => isOkE_pure _
      · exact isOkE_bind (jestConfigLoop_isOkE hok _) fun y2 => isOkE_pure _
    · refine isOkE_bind (tsConfigFallback_isOkE hok) fun y => ?_
      split
      · exact isOkE_bind (isOkE_pure _) fun y2 => isOkE_pure _
      · exact isOkE_bind (jestConfigLoop_isOkE hok _) fun y2 => isOkE_pure _
  · intro env
    rfl
  · intro env
    rfl

/-- Witness for C1 amended at a concrete environment whose language and
topic fetches both fail but whose content fetches all succeed. -/
theorem C1_amended_witness :
    isOkE (V1.detectTech envW1) = true ∧
    V1.detectTech { envW1 with languages := Except.error () } =
      V1.detectTech { envW1 with languages := Except.ok [] } := by
  constructor
  · exact C1_amended.1 envW1 (fun f => ⟨none, rfl⟩)
  · exact C1_amended.2.1 envW1

/-! ### Claim C4: qualification monotonicity -/

theorem V2_detectTech_frontend_inv (env : RepoEnv) (r : V2.TechSignals)
    (h : V2.detectTech env = Except.ok r) :
    r.hasFrontendTests = (r.hasReact && r.hasJest && r.hasFrontendTestLibs) := by
  unfold V2.detectTech at h
  cases hp : V2.detectPre env with
  | error e => rw [hp] at h; cases h
  | ok s =>
      rw [hp] at h
      have h3 := Except.ok.inj h
      subst h3
      rfl

/-- Counterexample to C4 as stated: in the part_000 variant (one of the
two main loops the claim covers) a candidate with the bare test-runner
signal false still qualifies.  In an environment whose manifest has react
as a dependency and only @testing-library/react as a devDependency (no
jest dependency, script or config file), detectTech returns hasJest =
false with frontend-test evidence true, the default noise classifier
leaves the name acme-dashboard alone, and the main-loop decision (noise
exclusion and REQUIRE_FRONTEND_TESTS both enabled) accepts the
candidate, so qualification does not require the bare test-runner signal
there. -/
theorem C4_counterexample :
    P0.detectTech envC4 = Except.ok sigsC4 ∧
    sigsC4.hasJest = false ∧
    detectCourseOrBoilerplate [] [] false "" (some "acme-dashboard") none [] = false ∧
    P0.qualifies true true false sigsC4 = true := by
  refine ⟨by decide, by decide, by decide, by decide⟩

/-- C4 amended: in both cited variants a candidate whose language signal
is false never qualifies, and a noise-classified candidate is never
accepted when exclusion is enabled; in the stricter REST .ts variant a
qualifying candidate has language, framework, bare test-runner and
frontend-test-library signals all true; in the part_000 variant a
qualifying candidate has language and framework true and, when
REQUIRE_FRONTEND_TESTS is set, frontend-test evidence true - evidence
that the test-library signal alone can supply, without the bare
test-runner. -/
theorem C4_amended :
    (∀ (ex noise : Bool) (t : V2.TechSignals), t.hasTS = false →
        V2.qualifies ex noise t = false) ∧
    (∀ (ex req noise : Bool) (t : P0.TechSignals), t.hasTS = false →
        P0.qualifies ex req noise t = false) ∧
    (∀ (t : V2.TechSignals), V2.qualifies true true t = false) ∧
    (∀ (req : Bool) (t : P0.TechSignals), P0.qualifies true req true t = false) ∧
    (∀ (env : RepoEnv) (r : V2.TechSignals) (ex noise : Bool),
        V2.detectTech env = Except.ok r → V2.qualifies ex noise r = true →
        r.hasTS = true ∧ r.hasReact = true ∧ r.hasJest = true ∧
          r.hasFrontendTestLibs = true) ∧
    (∀ (ex req noise : Bool) (t : P0.TechSignals),
        P0.qualifies ex req noise t = true →
        t.hasTS = true ∧ t.hasReact = true ∧
          (req = true → t.hasFrontendTests = true)) := by
  refine ⟨?_, ?_, ?_, ?_, ?_, ?_⟩
  · intro ex noise t h
    simp [V2.qualifies, h]
  · intro ex req noise t h
    simp [P0.qualifies, h]
  · intro t
    simp [V2.qualifies]
  · intro req t
    simp [P0.qualifies]
  · intro env r ex noise hdet hq
    have hinv := V2_detectTech_frontend_inv env r hdet
    simp only [V2.qualifies, Bool.and_eq_true] at hq
    obtain ⟨⟨-, hts, hreact⟩, hfe⟩ := hq
    rw [hinv] at hfe
    simp only [Bool.and_eq_true] at hfe
    exact ⟨hts, hreact, hfe.1.2, hfe.2⟩
  · intro ex req noise t hq
    simp only [P0.qualifies, Bool.and_eq_true] at hq
    obtain ⟨⟨-, hts, hreact⟩, hfe⟩ := hq
    refine ⟨hts, hreact, ?_⟩
    intro hreq
    rcases Bool.or_eq_true_iff.1 hfe with h | h
    · rw [hreq] at h
      simp at h
    · exact h

/-- Witness for C4 amended at concrete signal records: a language-false
candidate rejected by both variants, a qualifying richer-variant output
with all four signals true, and the part_000 counterexample record
satisfying the amended part_000 rule. -/
theorem C4_amended_witness :
    V2.qualifies true false (V2.TechSignals.mk false true true true [] [] true true) = false ∧
    P0.qualifies true true false (P0.TechSignals.mk false true true true [] []) = false ∧
    (sigsW4.hasTS = true ∧ sigsW4.hasReact = true ∧ sigsW4.hasJest = true ∧
      sigsW4.hasFrontendTestLibs = true) ∧
    (sigsC4.hasTS = true ∧ sigsC4.hasReact = true ∧
      (true = true → sigsC4.hasFrontendTests = true)) := by
  refine ⟨C4_amended.1 true false _ rfl, C4_amended.2.1 true true false _ rfl,
    C4_amended.2.2.2.2.1 envW4 sigsW4 true false (by decide) (by decide),
    C4_amended.2.2.2.2.2 true true false sigsC4 (by decide)⟩

/-! ### Claim C2: manifest-based detection -/

/-- C2: for every environment whose root manifest parses to an object
with react among the dependencies and jest and @testing-library/react
among the devDependencies (and no typescript entry, as in the specified
manifest), the richer detectTech yields the framework signal, the bare
test-runner signal and the frontend-test-library signal all true, and
the language signal is exactly the one computed from the separate
language-breakdown input (with its config-file fallback), independent of
the manifest. -/
theorem C2_manifest_detection :
    ∀ (env : RepoEnv) (s : String) (p : PkgJson),
      env.content "package.json" = Except.ok (some s) → (s == "") = false →
      env.parse s = some p →
      hasDep p "react" = true →
      truthyLookup p.devDependencies "jest" = true →
      truthyLookup p.devDependencies "@testing-library/react" = true →
      hasDep p "typescript" = false →
      V2.detectTech env = (V2.tsSignal env).map fun ts =>
        V2.TechSignals.mk ts true true true (V2.detectFrontendFromPkg p).libs
          (caught [] env.topics) true true := by
  intro env s p hcontent hse hparse hreact hjestdev hrtldev htsdep
  have hReactAny : pkgHasAnyDep p ["react", "react-dom"] = true := by
    simp [pkgHasAnyDep, hreact]
  have hTsAny : pkgHasAnyDep p ["typescript"] = false := by
    simp [pkgHasAnyDep, htsdep]
  have hJest : (V2.detectFrontendFromPkg p).hasJest = true := by
    simp [V2.detectFrontendFromPkg, pkgHasAnyDep, hasDep, hjestdev]
  have hFTL : (V2.detectFrontendFromPkg p).hasFrontendTestLibs = true := by
    simp [V2.detectFrontendFromPkg, pkgHasAnyDep, hasDep, hrtldev]
  unfold V2.detectTech V2.detectPre V2.tsSignal
  rw [hcontent, ok_bind]
  dsimp only
  simp only [parseIfTruthy, hse, Bool.false_eq_true, if_false, hparse, hTsAny,
    Bool.or_false, hJest, hReactAny, Bool.true_or, if_true, Option.map, hFTL]
  by_cases hl : getLangTS (caught [] env.languages) = true
  · rw [if_pos hl, if_pos hl]
    rfl
  · rw [if_neg hl, if_neg hl]
    cases htf : tsConfigFallback env with
    | error e => cases e; simp [htf, Except.map, Bind.bind, Except.bind]
    | ok b =>
        simp only [htf, Except.map, Bind.bind, Except.bind, Pure.pure, Except.pure]
        rfl

/-- Witness for C2 at a concrete environment carrying exactly the
manifest of the specification. -/
theorem C2_manifest_detection_witness :
    V2.detectTech envW4 = (V2.tsSignal envW4).map (fun ts =>
      V2.TechSignals.mk ts true true true (V2.detectFrontendFromPkg pkgW4).libs
        (caught [] envW4.topics) true true) ∧
    V2.detectTech envW4 = Except.ok (V2.TechSignals.mk true true true true
      ["testing-library", "jest"] [] true true) := by
  constructor
  · exact C2_manifest_detection envW4 "pkgW4text" pkgW4 (by decide) (by decide)
      (by decide) (by decide) (by decide) (by decide) (by decide)
  · decide

/-! ### Claim C3: the source-scan fallback -/

/-- C3: the source-scan fallback is consulted exactly when the framework
and bare test-runner signals are true and no recognized test-utility
package was found: when that guard fails, the result of detectTech is
unchanged under any replacement of the directory-listing part of the
environment (the scan is irrelevant); when the guard holds, the final
frontend-test-library signal is precisely the result of the scan, a
positive scan appending the marker "test-files" to the detected-library
list (distinguishing the scan path from the manifest path) and a negative
scan leaving it unchanged.  A directory listing whose first entry is a
file matching the test-file naming convention and whose content contains
the testing-library render-import markers (or enzyme markers) makes the
traversal return true immediately, for every continuation of the listing
(the short-circuit); and a positive traversal of any of the conventional
top-level directories makes the whole scan positive. -/
theorem C3_source_scan :
    (∀ (env : RepoEnv) (s : V2.PreState) (rd : String → Option (List FsEntry)),
        V2.detectPre env = Except.ok s →
        (s.hasReact && s.hasJest && !s.hasFrontendTestLibs) = false →
        V2.detectTech { env with rootDirs := rd } = V2.detectTech env) ∧
    (∀ (env : RepoEnv) (s : V2.PreState),
        V2.detectPre env = Except.ok s →
        (s.hasReact && s.hasJest && !s.hasFrontendTestLibs) = true →
        ∃ r, V2.detectTech env = Except.ok r ∧
          r.hasFrontendTestLibs = V2.searchForTestFiles env ∧
          (V2.searchForTestFiles env = true →
            r.feLibs = s.feLibs ++ ["test-files"]) ∧
          (V2.searchForTestFiles env = false → r.feLibs = s.feLibs)) ∧
    (∀ (env : RepoEnv) (name path c : String) (rest : List FsEntry)
        (basePath : String),
        V2.isTestFileName name = true →
        env.content path = Except.ok (some c) → (c == "") = false →
        V2.testFileMatches c = true →
        V2.searchDirectoryForReactTests env (FsEntry.file name path :: rest)
          basePath = true) ∧
    (∀ (env : RepoEnv) (pattern : String) (entries : List FsEntry),
        pattern ∈ V2.testPatterns → env.rootDirs pattern = some entries →
        V2.searchDirectoryForReactTests env entries pattern = true →
        V2.searchForTestFiles env = true) := by
  refine ⟨?_, ?_, ?_, ?_⟩
  · intro env s rd hpre hguard
    unfold V2.detectTech
    have hpre2 : V2.detectPre { env with rootDirs := rd } = V2.detectPre env := rfl
    rw [hpre2, hpre]
    simp only [Except.map]
    unfold V2.applyScan
    simp only [hguard, Bool.false_eq_true, if_false]
  · intro env s hpre hguard
    refine ⟨V2.applyScan env s, ?_, ?_, ?_, ?_⟩
    · unfold V2.detectTech
      rw [hpre]
      rfl
    · unfold V2.applyScan
      simp only [hguard, if_true]
      have hftl : s.hasFrontendTestLibs = false := by
        rcases Bool.and_eq_true_iff.1 hguard with ⟨-, h2⟩
        simpa using h2
      cases hscan : V2.searchForTestFiles env
      · simp [hftl]
      · simp
    · intro hscan
      unfold V2.applyScan
      simp only [hguard, if_true, hscan]
    · intro hscan
      unfold V2.applyScan
      simp only [hguard, if_true, hscan, Bool.false_eq_true, if_false]
  · intro env name path c rest basePath hname hcontent hce hmatch
    unfold V2.searchDirectoryForReactTests
    rw [if_pos hname, hcontent]
    have hst : strTruthy (some c) = true := by
      simp [strTruthy, hce]
      intro h
      rw [h] at hce
      simp at hce
    dsimp only
    rw [hst, hmatch]
    rfl
  · intro env pattern entries hpat hrd hsearch
    unfold V2.searchForTestFiles
    rw [List.any_eq_true]
    refine ⟨pattern, hpat, ?_⟩
    rw [hrd]
    exact hsearch

theorem C3_source_scan_witness :
    (V2.searchDirectoryForReactTests envC3
        [FsEntry.file "App.test.tsx" "src/App.test.tsx"] "src" = true) ∧
    (V2.searchForTestFiles envC3 = true) ∧
    (∃ r, V2.detectTech envC3 = Except.ok r ∧
        r.hasFrontendTestLibs = V2.searchForTestFiles envC3 ∧
        (V2.searchForTestFiles envC3 = true →
          r.feLibs = preC3.feLibs ++ ["test-files"]) ∧
        (V2.searchForTestFiles envC3 = false → r.feLibs = preC3.feLibs)) ∧
    (V2.detectTech { envW4 with rootDirs := fun _ => none } =
      V2.detectTech envW4) := by
  have h1 : V2.searchDirectoryForReactTests envC3
      [FsEntry.file "App.test.tsx" "src/App.test.tsx"] "src" = true :=
    C3_source_scan.2.2.1 envC3 "App.test.tsx" "src/App.test.tsx" markerC3 []
      "src" (by decide) (by decide) (by decide) (by decide)
  refine ⟨h1, ?_, ?_, ?_⟩
  · exact C3_source_scan.2.2.2 envC3 "src"
      [FsEntry.file "App.test.tsx" "src/App.test.tsx"] (by decide) rfl h1
  · exact C3_source_scan.2.1 envC3 preC3 (by decide) (by decide)
  · exact C3_source_scan.1 envW4 preW4 (fun _ => none) (by decide) (by decide)
